import Mathlib

/-!
Verification of the `bind` package (HTTP parameter → struct binder) of the
gosh repository: a shallow embedding of `setFieldValue` (the value coercer),
the per-source resolution walks of `BindForm` / `BindQuery` / `BindJSON`,
and `validateRequired`, together with theorems settling the frozen claims.

Modelling conventions:
* Go machine integers are mathematical `Int`/`Nat` together with the explicit
  two's-complement / modular width reductions that `reflect.Value.SetInt` and
  `reflect.Value.SetUint` perform (`wrapSigned` / `wrapUnsigned`).
* Go floating-point values are modelled as exact rationals (`Rat`); no claim
  below depends on IEEE rounding, and the conversions exercised by the claims
  (small literals, truncation toward zero) are exact in both semantics.
* A destination slot is a value of type `Ty` (its static Go type) together
  with its current contents; `setFieldValue` returns the new contents, or an
  error (carrying the contents the caller's slot is left with), or a panic.
* All slots reached by the binder are settable (exported struct fields and
  freshly allocated cells), so the `fv.CanSet` guard of the source is never
  false on the modelled inputs and is not represented.
-/

namespace Gosh

/-- Widths of the Go signed integer kinds (`int` is 64-bit on the
platforms this repository targets). -/
inductive IntK where
  | int | int8 | int16 | int32 | int64
deriving DecidableEq, Repr

/-- Widths of the Go unsigned integer kinds (`uint` is 64-bit). -/
inductive UintK where
  | uint | uint8 | uint16 | uint32 | uint64
deriving DecidableEq, Repr

/-- The Go floating-point kinds. -/
inductive FloatK where
  | float32 | float64
deriving DecidableEq, Repr

def IntK.width : IntK → Nat
  | .int => 64 | .int8 => 8 | .int16 => 16 | .int32 => 32 | .int64 => 64

def UintK.width : UintK → Nat
  | .uint => 64 | .uint8 => 8 | .uint16 => 16 | .uint32 => 32 | .uint64 => 64

/-- Static Go types, as far as the binder can meet them: scalars, `interface{}`
(`iface`), pointers, slices and maps.  Distinct Go types (`int` vs `int64`)
stay distinct, which matters for the map branch's type-equality checks. -/
inductive Ty where
  | string
  | bool
  | int (k : IntK)
  | uint (k : UintK)
  | float (k : FloatK)
  | iface
  | ptr (elem : Ty)
  | slice (elem : Ty)
  | map (key val : Ty)
deriving DecidableEq, Repr

/-- Dynamic Go values as the coercer sees them.  `vnil` is the nil
interface value.  Map keys produced by the source adapters are always
strings, so map values carry string keys together with the map's declared
key/value types. -/
inductive GoVal where
  | vnil
  | vstr (s : String)
  | vbool (b : Bool)
  | vint (k : IntK) (i : Int)
  | vuint (k : UintK) (n : Nat)
  | vfloat (k : FloatK) (q : Rat)
  | vptr (elem : Ty) (deref : Option GoVal)
  | vslice (elem : Ty) (elems : List GoVal)
  | vmap (key val : Ty) (entries : List (String × GoVal))

/-- The dynamic type of a value (`reflect.ValueOf(value).Type()`).
`vnil` never reaches a type inspection: the nil check at the top of
`setFieldValue` panics first. -/
def GoVal.dynTy : GoVal → Ty
  | .vnil => .iface
  | .vstr _ => .string
  | .vbool _ => .bool
  | .vint k _ => .int k
  | .vuint k _ => .uint k
  | .vfloat k _ => .float k
  | .vptr t _ => .ptr t
  | .vslice t _ => .slice t
  | .vmap k v _ => .map k v

/-- Two's-complement reduction of an integer to `w` bits, as performed by
`reflect.Value.SetInt` when the slot is narrower than 64 bits. -/
def wrapSigned (w : Nat) (x : Int) : Int :=
  (x + 2 ^ (w - 1)) % 2 ^ w - 2 ^ (w - 1)

/-- Modular reduction of a natural number to `w` bits
(`reflect.Value.SetUint`). -/
def wrapUnsigned (w : Nat) (n : Nat) : Nat :=
  n % 2 ^ w

/-- The Go conversion `int64(u)` for a `uint64` operand. -/
def toSigned64 (n : Nat) : Int :=
  wrapSigned 64 (Int.ofNat n)

/-- Truncation of a rational toward zero: the Go conversions
`int64(f)` / `uint64(f)` for in-range operands.  (Out-of-range
float-to-integer conversion is architecture-specific in Go; no claim
exercises it.) -/
def truncQ (q : Rat) : Int :=
  q.num.tdiv q.den

/-- Digit run to its value; `none` when empty or a non-digit appears.
Mirrors the digit loop of `strconv` in base 10 (underscores are not
permitted when an explicit base is given). -/
def digitsVal? (cs : List Char) : Option Nat :=
  if cs.isEmpty then none
  else cs.foldl (fun acc c =>
    match acc with
    | none => none
    | some n => if c.isDigit then some (n * 10 + (c.toNat - 48)) else none) (some 0)

/-- Model of `strconv.ParseInt(s, 10, 64)`: optional sign, decimal digits,
result within the `int64` range. -/
def parseInt64 (s : String) : Option Int :=
  let cs := s.data
  let p : Bool × List Char :=
    match cs with
    | '+' :: rest => (false, rest)
    | '-' :: rest => (true, rest)
    | _ => (false, cs)
  match digitsVal? p.2 with
  | none => none
  | some n =>
    let v : Int := if p.1 then -(n : Int) else (n : Int)
    if -(2 ^ 63) ≤ v ∧ v ≤ 2 ^ 63 - 1 then some v else none

/-- Model of `strconv.ParseUint(s, 10, 64)`: decimal digits only (no sign),
result below `2^64`. -/
def parseUint64 (s : String) : Option Nat :=
  match digitsVal? s.data with
  | none => none
  | some n => if n ≤ 2 ^ 64 - 1 then some n else none

/-- Model of `strconv.ParseBool`: exactly the twelve canonical spellings. -/
def parseBool (s : String) : Option Bool :=
  if s = "1" ∨ s = "t" ∨ s = "T" ∨ s = "true" ∨ s = "TRUE" ∨ s = "True" then
    some true
  else if s = "0" ∨ s = "f" ∨ s = "F" ∨ s = "false" ∨ s = "FALSE" ∨ s = "False" then
    some false
  else none

/-- Model of `strconv.ParseFloat(s, 64)` on ordinary decimal literals: optional
sign, digits with an optional fractional part (at least one digit in the
mantissa), optional decimal exponent.  The special spellings strconv also
accepts (`inf`, `nan`, hexadecimal floats) and IEEE rounding are not
modelled; no claim exercises the string-to-float branch. -/
def parseFloatQ (s : String) : Option Rat :=
  let cs := s.data
  let sp : Int × List Char :=
    match cs with
    | '+' :: rest => (1, rest)
    | '-' :: rest => (-1, rest)
    | _ => (1, cs)
  let ip := sp.2.takeWhile Char.isDigit
  let afterInt := sp.2.dropWhile Char.isDigit
  let fpRest : List Char × List Char :=
    match afterInt with
    | '.' :: rest => (rest.takeWhile Char.isDigit, rest.dropWhile Char.isDigit)
    | _ => ([], afterInt)
  let fp := fpRest.1
  if ip.isEmpty ∧ fp.isEmpty then none
  else
    let dval : List Char → Nat := fun ds => ds.foldl (fun a c => a * 10 + (c.toNat - 48)) 0
    -- the decimal mantissa as numerator over a power-of-ten denominator
    let mnum : Nat := dval ip * 10 ^ fp.length + dval fp
    let mden : Nat := 10 ^ fp.length
    match fpRest.2 with
    | [] => some (mkRat (sp.1 * mnum) mden)
    | e :: rest =>
      if e = 'e' ∨ e = 'E' then
        let esp : Bool × List Char :=
          match rest with
          | '+' :: r => (false, r)
          | '-' :: r => (true, r)
          | _ => (false, rest)
        let ed := esp.2.takeWhile Char.isDigit
        let tail := esp.2.dropWhile Char.isDigit
        if ed.isEmpty ∨ ¬ tail.isEmpty then none
        else
          let ex := dval ed
          some (if esp.1 then mkRat (sp.1 * mnum) (mden * 10 ^ ex)
                else mkRat (sp.1 * mnum * 10 ^ ex) mden)
      else none

/-- The zero value of a Go type (`reflect.New(t).Elem()`). -/
def zeroVal : Ty → GoVal
  | .string => .vstr ""
  | .bool => .vbool false
  | .int k => .vint k 0
  | .uint k => .vuint k 0
  | .float k => .vfloat k 0
  | .iface => .vnil
  | .ptr t => .vptr t none
  | .slice t => .vslice t []
  | .map k v => .vmap k v []

/-- One constructor per `fmt.Errorf` site of `setFieldValue`, carrying the
same data the message interpolates. -/
inductive BindErr where
  | convStrBool (s : String)
  | convStrInt (s : String)
  | convStrUint (s : String)
  | convStrFloat (s : String)
  | unsupportedStrKind (dst : Ty)
  | assignBool (dst : Ty)
  | negIntToUint
  | assignInt (dst : Ty)
  | assignUint (dst : Ty)
  | negFloatToUint
  | assignFloat (dst : Ty)
  | mapKeyType (src dst : Ty)
  | mapValType (src dst : Ty)
  | cannotAssign (src dst : Ty)
deriving DecidableEq, Repr

/-- Result of one `setFieldValue` call: new slot contents on success, the
error together with the contents the caller's slot is left holding on
failure, or a propagated panic. -/
inductive SetRes where
  | ok (v : GoVal)
  | err (e : BindErr) (slot : GoVal)
  | panicked (msg : String)

/-- Result of coercing the elements of a source slice into fresh
destination cells. -/
inductive ElemsRes where
  | ok (vs : List GoVal)
  | err (e : BindErr)
  | panicked (msg : String)

/-- Result of coercing the values of a source map into fresh destination
cells. -/
inductive MapRes where
  | ok (entries : List (String × GoVal))
  | err (e : BindErr)
  | panicked (msg : String)

/-- The element loop of the slice branch: each source element is coerced
into a fresh zero cell of the destination element type (`slice.Index(i)` of
a `reflect.MakeSlice` result); the first failure aborts.  `f` is the
coercion at the element type. -/
def elemsWith (f : String → GoVal → SetRes) (fieldName : String) :
    Nat → List GoVal → ElemsRes
  | _, [] => .ok []
  | i, x :: rest =>
    match f (fieldName ++ "[" ++ toString i ++ "]") x with
    | .ok v =>
      match elemsWith f fieldName (i + 1) rest with
      | .ok vs => .ok (v :: vs)
      | .err e => .err e
      | .panicked m => .panicked m
    | .err e _ => .err e
    | .panicked m => .panicked m

/-- The value loop of the map branch: each source entry's value is coerced
into a fresh zero cell of the destination value type
(`reflect.New(fv.Type().Elem()).Elem()`); the first failure aborts.
Go iterates map keys in unspecified order; the model iterates the entry
list in order, which the proved claims (all order-independent) do not
distinguish. -/
def mapValsWith (f : String → GoVal → SetRes) (fieldName : String) :
    List (String × GoVal) → MapRes
  | [] => .ok []
  | (k, v) :: rest =>
    match f (fieldName ++ "[" ++ k ++ "]") v with
    | .ok w =>
      match mapValsWith f fieldName rest with
      | .ok l => .ok ((k, w) :: l)
      | .err e => .err e
      | .panicked m => .panicked m
    | .err e _ => .err e
    | .panicked m => .panicked m

/-- Go's assignability for the fallback branch.  The values that can reach
the fallback (slices, maps and pointers whose dynamic type failed every
earlier case) are assignable exactly when the types are equal; named types
do not occur in this package. -/
def assignableTo (src dst : Ty) : Bool := src == dst

/-- Go's convertibility for the fallback branch.  For the types reachable
there (mismatched slice/map/pointer against a non-matching destination)
convertibility coincides with type equality; the extra Go conversions
(e.g. `[]byte` to `string`) involve values no source adapter produces. -/
def convertibleTo (src dst : Ty) : Bool := src == dst

/-- The value coercer `setFieldValue` of the bind package, structurally
recursive on the destination type.  Mirrors the source order: nil check,
pointer indirection, type switch on the source value (string / bool /
signed / unsigned / float), slice branch, map branch, assign/convert
fallback. -/
def setFieldValue (slotTy : Ty) (fieldName : String) (cur : GoVal) (value : GoVal) :
    SetRes :=
  match value, slotTy with
  | .vnil, _ => .panicked "setFieldValue was given nil!"
  | v, .ptr t =>
    match setFieldValue t fieldName (zeroVal t) v with
    | .ok x => .ok (.vptr t (some x))
    | .err e _ => .err e cur
    | .panicked m => .panicked m
  | .vstr s, .string => .ok (.vstr s)
  | .vstr s, .bool =>
    match parseBool s with
    | some b => .ok (.vbool b)
    | none => .err (.convStrBool s) cur
  | .vstr s, .int k =>
    match parseInt64 s with
    | some i => .ok (.vint k (wrapSigned k.width i))
    | none => .err (.convStrInt s) cur
  | .vstr s, .uint k =>
    match parseUint64 s with
    | some n => .ok (.vuint k (wrapUnsigned k.width n))
    | none => .err (.convStrUint s) cur
  | .vstr s, .float k =>
    match parseFloatQ s with
    | some q => .ok (.vfloat k q)
    | none => .err (.convStrFloat s) cur
  | .vstr _, t => .err (.unsupportedStrKind t) cur
  | .vbool b, .bool => .ok (.vbool b)
  | .vbool _, t => .err (.assignBool t) cur
  | .vint _ i, .int k => .ok (.vint k (wrapSigned k.width i))
  | .vint _ i, .float k => .ok (.vfloat k (mkRat i 1))
  | .vint _ i, .uint k =>
    if i < 0 then .err .negIntToUint cur
    else .ok (.vuint k (wrapUnsigned k.width i.toNat))
  | .vint _ _, t => .err (.assignInt t) cur
  | .vuint _ n, .uint k => .ok (.vuint k (wrapUnsigned k.width n))
  | .vuint _ n, .int k => .ok (.vint k (wrapSigned k.width (toSigned64 n)))
  | .vuint _ n, .float k => .ok (.vfloat k (mkRat (Int.ofNat n) 1))
  | .vuint _ _, t => .err (.assignUint t) cur
  | .vfloat _ q, .float k => .ok (.vfloat k q)
  | .vfloat _ q, .int k => .ok (.vint k (wrapSigned k.width (truncQ q)))
  | .vfloat _ q, .uint k =>
    if q < 0 then .err .negFloatToUint cur
    else .ok (.vuint k (wrapUnsigned k.width (truncQ q).toNat))
  | .vfloat _ _, t => .err (.assignFloat t) cur
  | .vslice _ es, .slice dTy =>
    match elemsWith (fun nm x => setFieldValue dTy nm (zeroVal dTy) x) fieldName 0 es with
    | .ok vs => .ok (.vslice dTy vs)
    | .err e => .err e cur
    | .panicked m => .panicked m
  | .vmap sk sv ents, .map dk dv =>
    if sk ≠ dk then .err (.mapKeyType sk dk) cur
    else if sv ≠ dv then .err (.mapValType sv dv) cur
    else
      match mapValsWith (fun nm x => setFieldValue dv nm (zeroVal dv) x) fieldName ents with
      | .ok l => .ok (.vmap dk dv l)
      | .err e => .err e cur
      | .panicked m => .panicked m
  | v, t =>
    if assignableTo v.dynTy t then .ok v
    else if convertibleTo v.dynTy t then .ok v
    else .err (.cannotAssign v.dynTy t) cur

/-- The slice branch's element loop at a given destination element type. -/
def coerceElems (elemTy : Ty) (fieldName : String) (i : Nat) (es : List GoVal) : ElemsRes :=
  elemsWith (fun nm x => setFieldValue elemTy nm (zeroVal elemTy) x) fieldName i es

/-- The map branch's value loop at a given destination value type. -/
def coerceMapVals (valTy : Ty) (fieldName : String) (ents : List (String × GoVal)) : MapRes :=
  mapValsWith (fun nm x => setFieldValue valTy nm (zeroVal valTy) x) fieldName ents

/-- One struct field of a destination record: declared name, struct tags
(as key/value pairs, mirroring `reflect.StructTag`), and static type. -/
structure Field where
  name : String
  tags : List (String × String)
  ty : Ty
deriving DecidableEq, Repr

/-- Model of `reflect.StructTag.Get`: the value for a tag key, `""` when absent. -/
def tagGet (f : Field) (key : String) : String :=
  match f.tags.lookup key with
  | some v => v
  | none => ""

/-- The external name resolution of `forEachField`: the tag value for the
active source kind, or the declared field name when the tag is unset. -/
def tagOrName (f : Field) (key : String) : String :=
  let t := tagGet f key
  if t = "" then f.name else t

/-- Model of `validateRequired`: walk the fields in declaration order and fail with
the first field tagged `binding:"required"` whose name is not in the
written set; `none` means every required field was written. -/
def validateRequired (written : List String) : List Field → Option String
  | [] => none
  | f :: rest =>
    if tagGet f "binding" ≠ "required" then validateRequired written rest
    else if written.contains f.name then validateRequired written rest
    else some f.name

/-- What the per-field body of one of the binders observes for a field:
the external name is absent from the source mapping, or a value was
found, or the body panicked (`BindForm` on a present key with an empty
value list). -/
inductive StepRes where
  | absent
  | found (v : GoVal)
  | panicked (msg : String)

/-- The per-field body of `BindForm`: look the form tag up in `r.Form`
(a map from names to value lists); a present key with values uses
`values[0]`, a present key with no values panics. -/
def formStep (form : List (String × List String)) (f : Field) : StepRes :=
  match form.lookup (tagOrName f "form") with
  | none => .absent
  | some [] => .panicked "how is this present?"
  | some (v :: _) => .found (.vstr v)

/-- The per-field body of `BindQuery`: `q.Get(tag)` is the first value
(or `""` for a present key with no values), `q.Has(tag)` is presence. -/
def queryStep (q : List (String × List String)) (f : Field) : StepRes :=
  match q.lookup (tagOrName f "query") with
  | none => .absent
  | some vs => .found (.vstr (vs.headD ""))

/-- The per-field body of `BindJSON`: look the json tag up in the decoded
`map[string]any`. -/
def jsonStep (data : List (String × GoVal)) (f : Field) : StepRes :=
  match data.lookup (tagOrName f "json") with
  | none => .absent
  | some v => .found v

/-- Result of the `forEachField` walk: final slot contents of every field
(in declaration order) and the set of written field names, or the first
coercion error (with the slot contents at that point; the fields after the
failing one are never visited), or a panic. -/
inductive WalkRes where
  | ok (vals : List GoVal) (written : List String)
  | err (vals : List GoVal) (written : List String) (e : BindErr)
  | panicked (msg : String)

/-- The `forEachField` resolution walk shared by the three binders,
specialised by the per-field lookup `step`.  A found value is coerced into
the field's slot; the first error aborts the walk and the remaining
fields keep their current contents. -/
def bindWalk (step : Field → StepRes) : List (Field × GoVal) → WalkRes
  | [] => .ok [] []
  | (f, cur) :: rest =>
    match step f with
    | .panicked m => .panicked m
    | .absent =>
      match bindWalk step rest with
      | .ok vs ws => .ok (cur :: vs) ws
      | .err vs ws e => .err (cur :: vs) ws e
      | .panicked m => .panicked m
    | .found v =>
      match setFieldValue f.ty f.name cur v with
      | .panicked m => .panicked m
      | .err e sv => .err (sv :: rest.map Prod.snd) [] e
      | .ok nv =>
        match bindWalk step rest with
        | .ok vs ws => .ok (nv :: vs) (f.name :: ws)
        | .err vs ws e => .err (nv :: vs) (f.name :: ws) e
        | .panicked m => .panicked m

/-- Final result of a bind call.  A coercion error (`err`) and a
missing-required-field error (`requiredErr`) are distinct error values in
the source (`cannot …` vs `%s is required`); keeping them apart records
that `validateRequired` runs only after a clean walk. -/
inductive BindOut where
  | ok (vals : List GoVal)
  | err (vals : List GoVal) (e : BindErr)
  | requiredErr (vals : List GoVal) (missing : String)
  | panicked (msg : String)

/-- The shared shape of `BindForm` / `BindQuery` / `BindJSON`: run the
walk; a walk error is returned as-is (the validator is not reached);
otherwise validate the required fields against the written set. -/
def bindG (step : Field → StepRes) (fields : List (Field × GoVal)) : BindOut :=
  match bindWalk step fields with
  | .panicked m => .panicked m
  | .err vs _ e => .err vs e
  | .ok vs ws =>
    match validateRequired ws (fields.map Prod.fst) with
    | some name => .requiredErr vs name
    | none => .ok vs

/-- Model of `BindForm` after the transport's `ParseForm` step: bind the parsed
form mapping into the record. -/
def bindForm (form : List (String × List String)) (fields : List (Field × GoVal)) : BindOut :=
  bindG (formStep form) fields

/-- Model of `BindQuery`: bind the URL query mapping into the record. -/
def bindQuery (q : List (String × List String)) (fields : List (Field × GoVal)) : BindOut :=
  bindG (queryStep q) fields

/-- Model of `BindJSON` after the JSON decode step: bind the decoded
`map[string]any` into the record. -/
def bindJSON (data : List (String × GoVal)) (fields : List (Field × GoVal)) : BindOut :=
  bindG (jsonStep data) fields

/-- JSON documents, with numbers kept exact.  (`encoding/json` parses a
number into the nearest `float64`; the numbers in the claims are exactly
representable, so the rational model agrees.) -/
inductive Json where
  | null
  | bool (b : Bool)
  | num (q : Rat)
  | str (s : String)
  | arr (xs : List Json)
  | obj (members : List (String × Json))

mutual

/-- The dynamic value `encoding/json` produces when decoding into
`interface{}`: null → nil, numbers → `float64`, arrays → `[]interface{}`,
objects → `map[string]interface{}`. -/
def jsonToGo : Json → GoVal
  | .null => .vnil
  | .bool b => .vbool b
  | .num q => .vfloat .float64 q
  | .str s => .vstr s
  | .arr xs => .vslice .iface (jsonListToGo xs)
  | .obj ms => .vmap .string .iface (jsonMembersToGo ms)

/-- Elementwise decode of a JSON array into `[]interface{}`. -/
def jsonListToGo : List Json → List GoVal
  | [] => []
  | x :: rest => jsonToGo x :: jsonListToGo rest

/-- Memberwise decode of a JSON object into `map[string]interface{}`. -/
def jsonMembersToGo : List (String × Json) → List (String × GoVal)
  | [] => []
  | (k, v) :: rest => (k, jsonToGo v) :: jsonMembersToGo rest

end

/-- Decoding a JSON object body into the `map[string]any` that `BindJSON`
resolves fields against. -/
def decodeJSONObj (members : List (String × Json)) : List (String × GoVal) :=
  jsonMembersToGo members

/-- Model of `BindJSON` from the JSON object body itself. -/
def bindJSONBody (members : List (String × Json)) (fields : List (Field × GoVal)) : BindOut :=
  bindJSON (decodeJSONObj members) fields

mutual

/-- Whether a dynamic value is, or contains at any depth, a Go
signed/unsigned integer value — i.e. whether feeding it (and, recursively,
its components) to the coercer can ever exercise the integer-source cases
of the type switch. -/
def GoVal.hasIntSource : GoVal → Bool
  | .vint _ _ => true
  | .vuint _ _ => true
  | .vptr _ d => hasIntSourceOpt d
  | .vslice _ es => hasIntSourceList es
  | .vmap _ _ ents => hasIntSourceEntries ents
  | _ => false

/-- Extension of `GoVal.hasIntSource` through an optional pointer target. -/
def hasIntSourceOpt : Option GoVal → Bool
  | none => false
  | some v => v.hasIntSource

/-- Extension of `GoVal.hasIntSource` over the elements of a slice. -/
def hasIntSourceList : List GoVal → Bool
  | [] => false
  | x :: rest => x.hasIntSource || hasIntSourceList rest

/-- Extension of `GoVal.hasIntSource` over the values of a map. -/
def hasIntSourceEntries : List (String × GoVal) → Bool
  | [] => false
  | (_, v) :: rest => v.hasIntSource || hasIntSourceEntries rest

end

/-! ## Helper lemmas -/

set_option maxHeartbeats 1600000 in
/-- On every error path `setFieldValue` reports the slot still holding its
previous contents: the coercer commits only complete results. -/
theorem setFieldValue_err_slot (t : Ty) (n : String) (cur v : GoVal) (e : BindErr)
    (sv : GoVal) (h : setFieldValue t n cur v = .err e sv) : sv = cur := by
  rw [setFieldValue.eq_def] at h
  repeat' split at h
  all_goals
    first
      | exact SetRes.noConfusion h
      | (injection h with h1 h2; exact h2.symm)

/-- Two's-complement reduction is the identity on values that fit the
width. -/
theorem wrapSigned_eq_self (w : Nat) (x : Int) (hw : w ≠ 0)
    (h1 : -(2 ^ (w - 1)) ≤ x) (h2 : x < 2 ^ (w - 1)) : wrapSigned w x = x := by
  have hsplit : (2 : Int) ^ w = 2 ^ (w - 1) * 2 := by
    have : w - 1 + 1 = w := Nat.succ_pred_eq_of_pos (Nat.pos_of_ne_zero hw)
    calc (2 : Int) ^ w = 2 ^ (w - 1 + 1) := by rw [this]
      _ = 2 ^ (w - 1) * 2 := pow_succ 2 (w - 1)
  unfold wrapSigned
  rw [Int.emod_eq_of_lt (by omega) (by omega)]
  omega

/-- Modular reduction is the identity below the modulus. -/
theorem wrapUnsigned_eq_self (w : Nat) (n : Nat) (h : n < 2 ^ w) :
    wrapUnsigned w n = n :=
  Nat.mod_eq_of_lt h

/-- A successful element loop produces one converted element per source
element. -/
theorem coerceElems_ok_length (dTy : Ty) (n : String) :
    ∀ (es : List GoVal) (i : Nat) (vs : List GoVal),
      coerceElems dTy n i es = .ok vs → vs.length = es.length := by
  intro es
  induction es with
  | nil =>
    intro i vs h
    simp only [coerceElems, elemsWith] at h
    injection h with h1
    simp [← h1]
  | cons x rest ih =>
    intro i vs h
    simp only [coerceElems, elemsWith] at h
    split at h
    next v hv =>
      split at h
      next vs' hrest =>
        injection h with h1
        have hr := ih (i + 1) vs' (by simpa [coerceElems] using hrest)
        rw [← h1]
        simp only [List.length_cons, hr]
      next => exact ElemsRes.noConfusion h
      next => exact ElemsRes.noConfusion h
    next => exact ElemsRes.noConfusion h
    next => exact ElemsRes.noConfusion h

/-- If the elements of a prefix all coerce and the next element fails, the
whole element loop fails with that element's error. -/
theorem coerceElems_prefix_err (dTy : Ty) (n : String) (x : GoVal)
    (post : List GoVal) (e : BindErr) (sv : GoVal) :
    ∀ (pre : List GoVal) (i : Nat) (vs : List GoVal),
      coerceElems dTy n i pre = .ok vs →
      setFieldValue dTy (n ++ "[" ++ toString (i + pre.length) ++ "]") (zeroVal dTy) x =
        .err e sv →
      coerceElems dTy n i (pre ++ x :: post) = .err e := by
  intro pre
  induction pre with
  | nil =>
    intro i vs _ h2
    simp only [List.length_nil, Nat.add_zero] at h2
    simp only [coerceElems, elemsWith, List.nil_append, h2]
  | cons y rest ih =>
    intro i vs h1 h2
    simp only [coerceElems, elemsWith] at h1
    split at h1
    next v hy =>
      split at h1
      next vs' hrest =>
        rw [List.length_cons, show i + (rest.length + 1) = (i + 1) + rest.length from by
          omega] at h2
        have hrec := ih (i + 1) vs' (by simpa [coerceElems] using hrest) h2
        simp only [coerceElems] at hrec
        simp only [coerceElems, List.cons_append, List.append_eq, elemsWith, hy, hrec]
      next => exact ElemsRes.noConfusion h1
      next => exact ElemsRes.noConfusion h1
    next => exact ElemsRes.noConfusion h1
    next => exact ElemsRes.noConfusion h1

/-- If the values of a prefix of map entries all coerce and the next
entry's value fails, the whole value loop fails with that error. -/
theorem coerceMapVals_prefix_err (dv : Ty) (n : String) (k : String) (v : GoVal)
    (post : List (String × GoVal)) (e : BindErr) (sv : GoVal) :
    ∀ (pre : List (String × GoVal)) (l : List (String × GoVal)),
      coerceMapVals dv n pre = .ok l →
      setFieldValue dv (n ++ "[" ++ k ++ "]") (zeroVal dv) v = .err e sv →
      coerceMapVals dv n (pre ++ (k, v) :: post) = .err e := by
  intro pre
  induction pre with
  | nil =>
    intro l _ h2
    simp only [coerceMapVals, mapValsWith, List.nil_append, h2]
  | cons y rest ih =>
    intro l h1 h2
    obtain ⟨yk, yv⟩ := y
    simp only [coerceMapVals, mapValsWith] at h1
    split at h1
    next w hy =>
      split at h1
      next l' hrest =>
        have hrec := ih l' (by simpa [coerceMapVals] using hrest) h2
        simp only [coerceMapVals] at hrec
        simp only [coerceMapVals, List.cons_append, List.append_eq, mapValsWith, hy, hrec]
      next => exact MapRes.noConfusion h1
      next => exact MapRes.noConfusion h1
    next => exact MapRes.noConfusion h1
    next => exact MapRes.noConfusion h1

/-- Appending to a field list whose walk succeeds: the combined walk is the
walk of the suffix, with the prefix's results prepended. -/
theorem bindWalk_append_ok (step : Field → StepRes) :
    ∀ (l₁ : List (Field × GoVal)) (vs : List GoVal) (ws : List String)
      (l₂ : List (Field × GoVal)),
      bindWalk step l₁ = .ok vs ws →
      bindWalk step (l₁ ++ l₂) =
        match bindWalk step l₂ with
        | .ok vs' ws' => .ok (vs ++ vs') (ws ++ ws')
        | .err vs' ws' e => .err (vs ++ vs') (ws ++ ws') e
        | .panicked m => .panicked m := by
  intro l₁
  induction l₁ with
  | nil =>
    intro vs ws l₂ h
    simp only [bindWalk] at h
    injection h with h1 h2
    subst h1; subst h2
    cases hb : bindWalk step l₂ <;> simp [hb]
  | cons fc rest ih =>
    intro vs ws l₂ h
    obtain ⟨f, cur⟩ := fc
    rw [List.cons_append]
    cases hstep : step f with
    | panicked m =>
      simp only [bindWalk, hstep] at h
      exact WalkRes.noConfusion h
    | absent =>
      simp only [bindWalk, hstep] at h ⊢
      cases hrest : bindWalk step rest with
      | ok vs' ws' =>
        simp only [hrest] at h
        injection h with h1 h2
        subst h1; subst h2
        rw [ih vs' ws' l₂ hrest]
        cases hb : bindWalk step l₂ <;> simp
      | err vs' ws' e =>
        simp only [hrest] at h
        exact WalkRes.noConfusion h
      | panicked m =>
        simp only [hrest] at h
        exact WalkRes.noConfusion h
    | found v =>
      simp only [bindWalk, hstep] at h ⊢
      cases hset : setFieldValue f.ty f.name cur v with
      | ok nv =>
        simp only [hset] at h ⊢
        cases hrest : bindWalk step rest with
        | ok vs' ws' =>
          simp only [hrest] at h
          injection h with h1 h2
          subst h1; subst h2
          rw [ih vs' ws' l₂ hrest]
          cases hb : bindWalk step l₂ <;> simp
        | err vs' ws' e =>
          simp only [hrest] at h
          exact WalkRes.noConfusion h
        | panicked m =>
          simp only [hrest] at h
          exact WalkRes.noConfusion h
      | err e sv =>
        simp only [hset] at h
        exact WalkRes.noConfusion h
      | panicked m =>
        simp only [hset] at h
        exact WalkRes.noConfusion h

/-- Walks driven by pointwise-equal steps coincide. -/
theorem bindWalk_congr (step₁ step₂ : Field → StepRes)
    (hstep : ∀ f, step₁ f = step₂ f) :
    ∀ fields, bindWalk step₁ fields = bindWalk step₂ fields := by
  intro fields
  induction fields with
  | nil => rfl
  | cons fc rest ih =>
    obtain ⟨f, cur⟩ := fc
    simp only [bindWalk, hstep f, ih]

/-- Binds driven by pointwise-equal steps coincide. -/
theorem bindG_congr (step₁ step₂ : Field → StepRes)
    (hstep : ∀ f, step₁ f = step₂ f) (fields : List (Field × GoVal)) :
    bindG step₁ fields = bindG step₂ fields := by
  unfold bindG
  rw [bindWalk_congr step₁ step₂ hstep]

/-- A nil source value panics before anything else happens. -/
theorem setFieldValue_nil (t : Ty) (n : String) (cur : GoVal) :
    setFieldValue t n cur .vnil = .panicked "setFieldValue was given nil!" := by
  cases t <;> rfl

/-- Association-list lookup across an append with a distinguished middle
entry. -/
theorem lookup_append_mid (key : String) (tag : String) (x : List String)
    (suffix : List (String × List String)) :
    ∀ pre : List (String × List String),
      List.lookup key (pre ++ (tag, x) :: suffix) =
        match List.lookup key pre with
        | some r => some r
        | none => if key == tag then some x else List.lookup key suffix := by
  intro pre
  induction pre with
  | nil =>
    simp only [List.nil_append, List.lookup]
    split <;> simp_all
  | cons p rest ih =>
    obtain ⟨pk, pv⟩ := p
    simp only [List.cons_append, List.lookup]
    split <;> simp_all

/-- The `BindForm` per-field lookup ignores everything after the first value
of a multi-valued form entry. -/
theorem formStep_first_value (pre : List (String × List String)) (tag v : String)
    (rest rest' : List String) (suffix : List (String × List String)) (f : Field) :
    formStep (pre ++ (tag, v :: rest) :: suffix) f =
      formStep (pre ++ (tag, v :: rest') :: suffix) f := by
  unfold formStep
  rw [lookup_append_mid, lookup_append_mid]
  cases List.lookup (tagOrName f "form") pre with
  | some r => rfl
  | none =>
    by_cases h : (tagOrName f "form" == tag) = true <;> simp [h]

/-- The `BindQuery` per-field lookup ignores everything after the first value
of a multi-valued query entry. -/
theorem queryStep_first_value (pre : List (String × List String)) (tag v : String)
    (rest rest' : List String) (suffix : List (String × List String)) (f : Field) :
    queryStep (pre ++ (tag, v :: rest) :: suffix) f =
      queryStep (pre ++ (tag, v :: rest') :: suffix) f := by
  unfold queryStep
  rw [lookup_append_mid, lookup_append_mid]
  cases List.lookup (tagOrName f "query") pre with
  | some r => rfl
  | none =>
    by_cases h : (tagOrName f "query" == tag) = true <;> simp [h]

/-! ## The claims -/

/-- C9: for every destination slot of every kind — pointer destinations
included — a nil source value makes `setFieldValue` panic (the nil check
precedes pointer peeling), rather than returning an error or leaving the
pointer nil. -/
theorem c9_nil_source_panics (t : Ty) (n : String) (cur : GoVal) :
    setFieldValue t n cur .vnil = .panicked "setFieldValue was given nil!" :=
  setFieldValue_nil t n cur

/-- C1 (counterexample): the string `"300"` parses as the integer 300, yet
coercing it into an `int8` destination succeeds and the slot reads back 44
(= 300 reduced to 8 signed bits), not the parsed value — refuting the
claim's exact round-trip for every integer-kind destination. -/
theorem c1_counterexample :
    parseInt64 "300" = some 300 ∧
      setFieldValue (.int .int8) "Num" (.vint .int8 0) (.vstr "300") =
        .ok (.vint .int8 44) ∧
      (44 : Int) ≠ 300 :=
  ⟨rfl, rfl, by decide⟩

/-- C1 (amended): for every string that parses as a base-10 integer and
every integer-kind destination, coercion succeeds and reading the slot
yields the parsed value reduced to the destination's width by
two's-complement wraparound — exactly the parsed value whenever it fits
the destination's range. -/
theorem c1_string_to_int_roundtrip (k : IntK) (s : String) (i : Int) (n : String)
    (cur : GoVal) (h : parseInt64 s = some i) :
    setFieldValue (.int k) n cur (.vstr s) = .ok (.vint k (wrapSigned k.width i)) ∧
      (-(2 ^ (k.width - 1)) ≤ i → i < 2 ^ (k.width - 1) → wrapSigned k.width i = i) := by
  constructor
  · simp [setFieldValue, h]
  · intro h1 h2
    exact wrapSigned_eq_self k.width i (by cases k <;> decide) h1 h2

/-- Witness for C1: the parseable string `"57"` lands in an `int8` slot as
`wrapSigned 8 57`, which its in-range hypothesis evaluates to 57 itself. -/
theorem c1_string_to_int_roundtrip_witness :
    setFieldValue (.int .int8) "Num" (.vint .int8 0) (.vstr "57") =
        .ok (.vint .int8 (wrapSigned IntK.int8.width 57)) ∧
      (-(2 ^ (IntK.int8.width - 1)) ≤ (57 : Int) → (57 : Int) < 2 ^ (IntK.int8.width - 1) →
        wrapSigned IntK.int8.width 57 = 57) :=
  c1_string_to_int_roundtrip .int8 "57" 57 "Num" (.vint .int8 0) rfl

/-- C4 (counterexample): the signed source value 300 coerced into a
`uint8` destination succeeds but the slot holds 44 (= 300 mod 256), not
the source's numeric value — refuting the claim's exactness for every
unsigned destination. -/
theorem c4_counterexample :
    setFieldValue (.uint .uint8) "N" (.vuint .uint8 0) (.vint .int 300) =
        .ok (.vuint .uint8 44) ∧
      (44 : Nat) ≠ 300 :=
  ⟨rfl, by decide⟩

/-- C4 (amended): a non-negative signed-integer source coerces into an
unsigned destination successfully and the slot holds the value reduced
modulo the destination's width — exactly the source value whenever it
fits; a negative source fails with the negative-to-unsigned error and the
destination is left unmodified. -/
theorem c4_signed_to_unsigned (sk : IntK) (dk : UintK) (i : Int) (n : String)
    (cur : GoVal) :
    (0 ≤ i →
      setFieldValue (.uint dk) n cur (.vint sk i) =
          .ok (.vuint dk (wrapUnsigned dk.width i.toNat)) ∧
        (i.toNat < 2 ^ dk.width → wrapUnsigned dk.width i.toNat = i.toNat)) ∧
    (i < 0 → setFieldValue (.uint dk) n cur (.vint sk i) = .err .negIntToUint cur) := by
  constructor
  · intro h
    refine ⟨?_, fun hlt => wrapUnsigned_eq_self _ _ hlt⟩
    simp [setFieldValue, not_lt.mpr h]
  · intro h
    simp [setFieldValue, h]

/-- Witness for C4: 300 into `uint8` succeeds as 300 mod 256, and −3 into
`uint8` fails with the slot untouched. -/
theorem c4_signed_to_unsigned_witness :
    (setFieldValue (.uint .uint8) "N" (.vuint .uint8 0) (.vint .int 300) =
          .ok (.vuint .uint8 (wrapUnsigned UintK.uint8.width (Int.toNat 300))) ∧
        (Int.toNat 300 < 2 ^ UintK.uint8.width →
          wrapUnsigned UintK.uint8.width (Int.toNat 300) = Int.toNat 300)) ∧
      setFieldValue (.uint .uint8) "N" (.vuint .uint8 0) (.vint .int (-3)) =
        .err .negIntToUint (.vuint .uint8 0) :=
  ⟨(c4_signed_to_unsigned .int .uint8 300 "N" (.vuint .uint8 0)).1 (by decide),
   (c4_signed_to_unsigned .int .uint8 (-3) "N" (.vuint .uint8 0)).2 (by decide)⟩

/-- C3: a pointer-to-T destination is transparent — when the source value
would coerce into a bare T slot with result `x`, the pointer destination
succeeds and dereferences to `x`; when the bare coercion would fail, the
pointer destination fails with the same error and the slot (nil for a
fresh pointer) is left as it was. -/
theorem c3_pointer_transparent (t : Ty) (n : String) (cur v : GoVal) :
    (∀ x, setFieldValue t n (zeroVal t) v = .ok x →
      setFieldValue (.ptr t) n cur v = .ok (.vptr t (some x))) ∧
    (∀ e sv, setFieldValue t n (zeroVal t) v = .err e sv →
      setFieldValue (.ptr t) n cur v = .err e cur) := by
  constructor
  · intro x h
    cases v <;>
      first
        | (rw [setFieldValue_nil] at h; exact SetRes.noConfusion h)
        | simp only [setFieldValue, h]
  · intro e sv h
    cases v <;>
      first
        | (rw [setFieldValue_nil] at h; exact SetRes.noConfusion h)
        | simp only [setFieldValue, h]

/-- Witness for C3: `"30"` coerces into `*int` and dereferences to 30;
`"x"` fails into `*int` with the same parse error as into a bare `int`
and the nil pointer stays nil. -/
theorem c3_pointer_transparent_witness :
    setFieldValue (.ptr (.int .int)) "Age" (.vptr (.int .int) none) (.vstr "30") =
        .ok (.vptr (.int .int) (some (.vint .int 30))) ∧
      setFieldValue (.ptr (.int .int)) "Age" (.vptr (.int .int) none) (.vstr "x") =
        .err (.convStrInt "x") (.vptr (.int .int) none) :=
  ⟨(c3_pointer_transparent (.int .int) "Age" (.vptr (.int .int) none) (.vstr "30")).1
      (.vint .int 30) rfl,
   (c3_pointer_transparent (.int .int) "Age" (.vptr (.int .int) none) (.vstr "x")).2
      (.convStrInt "x") (.vint .int 0) rfl⟩

/-- C2: slice coercion is all-or-nothing — if the prefix of elements
coerces but the next element fails, the whole call fails with that
element's error and the caller's slot keeps its previous contents; if
every element coerces, a container of equal length is committed. -/
theorem c2_slice_all_or_nothing (dTy sTy : Ty) (n : String) (cur : GoVal) :
    (∀ (pre : List GoVal) (x : GoVal) (post vs : List GoVal) (e : BindErr) (sv : GoVal),
      coerceElems dTy n 0 pre = .ok vs →
      setFieldValue dTy (n ++ "[" ++ toString pre.length ++ "]") (zeroVal dTy) x =
        .err e sv →
      setFieldValue (.slice dTy) n cur (.vslice sTy (pre ++ x :: post)) = .err e cur) ∧
    (∀ es vs : List GoVal,
      coerceElems dTy n 0 es = .ok vs →
      setFieldValue (.slice dTy) n cur (.vslice sTy es) = .ok (.vslice dTy vs) ∧
        vs.length = es.length) := by
  constructor
  · intro pre x post vs e sv h1 h2
    have hfail := coerceElems_prefix_err dTy n x post e sv pre 0 vs h1 (by simpa using h2)
    simp only [coerceElems] at hfail
    simp only [setFieldValue, hfail]
  · intro es vs h
    have hlen := coerceElems_ok_length dTy n es 0 vs h
    simp only [coerceElems] at h
    exact ⟨by simp only [setFieldValue, h], hlen⟩

/-- Witness for C2: `["1", "x", "3"]` into `[]int` fails with the parse
error of element 1 leaving the old slot contents, and `["4", "5"]`
commits a two-element slice. -/
theorem c2_slice_all_or_nothing_witness :
    setFieldValue (.slice (.int .int)) "Ids" (.vslice (.int .int) [.vint .int 9])
        (.vslice .iface ([.vstr "1"] ++ .vstr "x" :: [.vstr "3"])) =
      .err (.convStrInt "x") (.vslice (.int .int) [.vint .int 9]) ∧
    (setFieldValue (.slice (.int .int)) "Ids" (.vslice (.int .int) [.vint .int 9])
        (.vslice .iface [.vstr "4", .vstr "5"]) =
      .ok (.vslice (.int .int) [.vint .int 4, .vint .int 5]) ∧
      ([GoVal.vint .int 4, GoVal.vint .int 5].length = [GoVal.vstr "4", GoVal.vstr "5"].length)) :=
  ⟨(c2_slice_all_or_nothing (.int .int) .iface "Ids" (.vslice (.int .int) [.vint .int 9])).1
      [.vstr "1"] (.vstr "x") [.vstr "3"] [.vint .int 1] (.convStrInt "x") (.vint .int 0)
      rfl rfl,
   (c2_slice_all_or_nothing (.int .int) .iface "Ids" (.vslice (.int .int) [.vint .int 9])).2
      [.vstr "4", .vstr "5"] [.vint .int 4, .vint .int 5] rfl⟩

/-- C5: map coercion requires the declared key type to equal the source's
(always-string) key type, then the declared value type to equal the
source's value type; each entry's value is recursively coerced and any
per-value failure aborts with the caller's slot untouched; full success
commits the converted map. -/
theorem c5_map_structural (dv sv' : Ty) (n : String) (cur : GoVal) :
    (∀ (dk : Ty) (ents : List (String × GoVal)), dk ≠ .string →
      setFieldValue (.map dk dv) n cur (.vmap .string sv' ents) =
        .err (.mapKeyType .string dk) cur) ∧
    (∀ ents : List (String × GoVal), sv' ≠ dv →
      setFieldValue (.map .string dv) n cur (.vmap .string sv' ents) =
        .err (.mapValType sv' dv) cur) ∧
    (∀ (pre : List (String × GoVal)) (k : String) (v : GoVal)
        (post l : List (String × GoVal)) (e : BindErr) (sv0 : GoVal),
      coerceMapVals dv n pre = .ok l →
      setFieldValue dv (n ++ "[" ++ k ++ "]") (zeroVal dv) v = .err e sv0 →
      setFieldValue (.map .string dv) n cur (.vmap .string dv (pre ++ (k, v) :: post)) =
        .err e cur) ∧
    (∀ ents l : List (String × GoVal),
      coerceMapVals dv n ents = .ok l →
      setFieldValue (.map .string dv) n cur (.vmap .string dv ents) =
        .ok (.vmap .string dv l)) := by
  refine ⟨?_, ?_, ?_, ?_⟩
  · intro dk ents h
    have hne : Ty.string ≠ dk := fun hc => h hc.symm
    simp [setFieldValue, hne]
  · intro ents h
    simp [setFieldValue, h]
  · intro pre k v post l e sv0 h1 h2
    have hfail := coerceMapVals_prefix_err dv n k v post e sv0 pre l h1 h2
    simp only [coerceMapVals] at hfail
    simp [setFieldValue, hfail]
  · intro ents l h
    simp only [coerceMapVals] at h
    simp [setFieldValue, h]

/-- Witness for C5: an `int`-keyed destination rejects the string-keyed
source; a value-type mismatch is rejected; a failing entry value aborts
with the slot untouched; an all-good map commits. -/
theorem c5_map_structural_witness :
    setFieldValue (.map (.int .int) .iface) "M" (.vmap (.int .int) .iface [])
        (.vmap .string .iface [("a", .vstr "1")]) =
      .err (.mapKeyType .string (.int .int)) (.vmap (.int .int) .iface []) ∧
    setFieldValue (.map .string (.int .int)) "M" (.vmap .string (.int .int) [])
        (.vmap .string .iface [("a", .vstr "1")]) =
      .err (.mapValType .iface (.int .int)) (.vmap .string (.int .int) []) ∧
    setFieldValue (.map .string (.int .int)) "M" (.vmap .string (.int .int) [])
        (.vmap .string (.int .int) ([] ++ ("a", .vstr "x") :: [])) =
      .err (.convStrInt "x") (.vmap .string (.int .int) []) ∧
    setFieldValue (.map .string (.int .int)) "M" (.vmap .string (.int .int) [])
        (.vmap .string (.int .int) [("a", .vint .int 3)]) =
      .ok (.vmap .string (.int .int) [("a", .vint .int 3)]) :=
  ⟨(c5_map_structural .iface .iface "M" (.vmap (.int .int) .iface [])).1 (.int .int)
      [("a", .vstr "1")] (by decide),
   (c5_map_structural (.int .int) .iface "M" (.vmap .string (.int .int) [])).2.1
      [("a", .vstr "1")] (by decide),
   (c5_map_structural (.int .int) .iface "M" (.vmap .string (.int .int) [])).2.2.1
      [] "a" (.vstr "x") [] [] (.convStrInt "x") (.vint .int 0) rfl rfl,
   (c5_map_structural (.int .int) .iface "M" (.vmap .string (.int .int) [])).2.2.2
      [("a", .vint .int 3)] [("a", .vint .int 3)] rfl⟩

/-- C7: required validation walks the declared fields in order and
succeeds exactly when every field tagged required is in the written set;
on failure it names the first required-but-unwritten field (hence at most
one field per call, the function returning at most one name). -/
theorem c7_required_validation (written : List String) (fields : List Field) :
    (validateRequired written fields = none ↔
      ∀ f ∈ fields, tagGet f "binding" = "required" → written.contains f.name = true) ∧
    (∀ nm, validateRequired written fields = some nm →
      ∃ pre f post, fields = pre ++ f :: post ∧ f.name = nm ∧
        tagGet f "binding" = "required" ∧ written.contains f.name = false ∧
        ∀ g ∈ pre, tagGet g "binding" = "required" → written.contains g.name = true) := by
  induction fields with
  | nil =>
    refine ⟨by simp [validateRequired], ?_⟩
    intro nm h
    simp [validateRequired] at h
  | cons f rest ih =>
    refine ⟨?_, ?_⟩
    · simp only [validateRequired]
      split
      next hne =>
        rw [ih.1]
        constructor
        · intro hall g hg hreq
          rcases List.mem_cons.mp hg with hgf | hgr
          · exact absurd (hgf ▸ hreq) hne
          · exact hall g hgr hreq
        · intro hall g hg hreq
          exact hall g (List.mem_cons_of_mem f hg) hreq
      next hreq =>
        push_neg at hreq
        split
        next hw =>
          rw [ih.1]
          constructor
          · intro hall g hg hgreq
            rcases List.mem_cons.mp hg with hgf | hgr
            · rw [hgf]; exact hw
            · exact hall g hgr hgreq
          · intro hall g hg hgreq
            exact hall g (List.mem_cons_of_mem f hg) hgreq
        next hw =>
          constructor
          · intro h; exact Option.noConfusion h
          · intro hall
            exact absurd (hall f (List.mem_cons_self f rest) hreq) (by simpa using hw)
    · intro nm h
      simp only [validateRequired] at h
      split at h
      next hne =>
        obtain ⟨pre, g, post, hsplit, hname, hgreq, hgw, hpre⟩ := ih.2 nm h
        refine ⟨f :: pre, g, post, by rw [hsplit, List.cons_append], hname, hgreq, hgw, ?_⟩
        intro g' hg' hreq'
        rcases List.mem_cons.mp hg' with hgf | hgr
        · exact absurd (hgf ▸ hreq') hne
        · exact hpre g' hgr hreq'
      next hreq =>
        push_neg at hreq
        split at h
        next hw =>
          obtain ⟨pre, g, post, hsplit, hname, hgreq, hgw, hpre⟩ := ih.2 nm h
          refine ⟨f :: pre, g, post, by rw [hsplit, List.cons_append], hname, hgreq, hgw, ?_⟩
          intro g' hg' hreq'
          rcases List.mem_cons.mp hg' with hgf | hgr
          · rw [hgf]; exact hw
          · exact hpre g' hgr hreq'
        next hw =>
          injection h with hnm
          exact ⟨[], f, rest, rfl, hnm, hreq, by simpa using hw, by simp⟩

/-- Witness for C7: with only `"Age"` written, a record whose first field
is `Name` (required) fails the validation naming `Name`, the first — and
only — missing required field. -/
theorem c7_required_validation_witness :
    ∃ pre f post,
      [Field.mk "Name" [("binding", "required")] .string,
        Field.mk "Age" [("binding", "required")] (.int .int)] = pre ++ f :: post ∧
        f.name = "Name" ∧ tagGet f "binding" = "required" ∧
        ["Age"].contains f.name = false ∧
        ∀ g ∈ pre, tagGet g "binding" = "required" → ["Age"].contains g.name = true :=
  (c7_required_validation ["Age"]
      [Field.mk "Name" [("binding", "required")] .string,
        Field.mk "Age" [("binding", "required")] (.int .int)]).2 "Name" rfl

/-- C8: in form and query binding only the first value listed under an
external name is used — replacing everything after the first value leaves
the bind result unchanged — and concretely `id=1&id=2` bound to an `int`
field named `id` yields 1. -/
theorem c8_first_value_only :
    (∀ (pre : List (String × List String)) (tag v : String) (rest rest' : List String)
        (suffix : List (String × List String)) (fields : List (Field × GoVal)),
      bindForm (pre ++ (tag, v :: rest) :: suffix) fields =
        bindForm (pre ++ (tag, v :: rest') :: suffix) fields) ∧
    (∀ (pre : List (String × List String)) (tag v : String) (rest rest' : List String)
        (suffix : List (String × List String)) (fields : List (Field × GoVal)),
      bindQuery (pre ++ (tag, v :: rest) :: suffix) fields =
        bindQuery (pre ++ (tag, v :: rest') :: suffix) fields) ∧
    bindQuery [("id", ["1", "2"])] [(Field.mk "id" [] (.int .int), .vint .int 0)] =
      .ok [.vint .int 1] := by
  refine ⟨?_, ?_, rfl⟩
  · intro pre tag v rest rest' suffix fields
    exact bindG_congr _ _ (formStep_first_value pre tag v rest rest' suffix) fields
  · intro pre tag v rest rest' suffix fields
    exact bindG_congr _ _ (queryStep_first_value pre tag v rest rest' suffix) fields

/-- C6: every bind walk (form, query, and JSON binds are the generic walk
at their respective per-field lookups) fails fast — when the fields before
`f` walk cleanly and `f`'s coercion fails, the bind returns that error
immediately: earlier fields keep the values written for them, the failing
field's slot is unchanged, the fields after it keep their original
contents, and required-field validation (a distinct outcome) is not
reached. -/
theorem c6_fail_fast :
    (∀ (step : Field → StepRes) (pre : List (Field × GoVal)) (vs : List GoVal)
        (ws : List String) (f : Field) (cur v : GoVal) (post : List (Field × GoVal))
        (e : BindErr) (sv : GoVal),
      bindWalk step pre = .ok vs ws →
      step f = .found v →
      setFieldValue f.ty f.name cur v = .err e sv →
      bindG step (pre ++ (f, cur) :: post) =
          .err (vs ++ sv :: post.map Prod.snd) e ∧
        sv = cur) ∧
    (∀ form fields, bindForm form fields = bindG (formStep form) fields) ∧
    (∀ q fields, bindQuery q fields = bindG (queryStep q) fields) ∧
    (∀ data fields, bindJSON data fields = bindG (jsonStep data) fields) := by
  refine ⟨?_, fun _ _ => rfl, fun _ _ => rfl, fun _ _ => rfl⟩
  intro step pre vs ws f cur v post e sv h1 h2 h3
  have hsv := setFieldValue_err_slot f.ty f.name cur v e sv h3
  have hcons : bindWalk step ((f, cur) :: post) = .err (sv :: post.map Prod.snd) [] e := by
    simp only [bindWalk, h2, h3]
  have hw := bindWalk_append_ok step pre vs ws ((f, cur) :: post) h1
  rw [hcons] at hw
  exact ⟨by simp only [bindG, hw], hsv⟩

/-- Witness for C6: with form data `a=x&b=2`, a two-field record fails on
the unparseable first field `A`, field `B` keeps its original contents,
and no required-field error is produced. -/
theorem c6_fail_fast_witness :
    bindG (formStep [("a", ["x"]), ("b", ["2"])])
        ([] ++ (Field.mk "A" [("form", "a")] (.int .int), GoVal.vint .int 0) ::
          [(Field.mk "B" [("form", "b")] (.int .int), GoVal.vint .int 7)]) =
        .err ([] ++ GoVal.vint .int 0 ::
          ([(Field.mk "B" [("form", "b")] (.int .int), GoVal.vint .int 7)].map Prod.snd))
          (.convStrInt "x") ∧
      GoVal.vint .int 0 = GoVal.vint .int 0 :=
  c6_fail_fast.1 (formStep [("a", ["x"]), ("b", ["2"])]) [] [] []
    (Field.mk "A" [("form", "a")] (.int .int)) (.vint .int 0) (.vstr "x")
    [(Field.mk "B" [("form", "b")] (.int .int), GoVal.vint .int 7)]
    (.convStrInt "x") (.vint .int 0) rfl rfl rfl

/-- C10 (counterexample): the fractional JSON number −2.5 bound to a
`uint` field does not succeed by truncation — the bind fails with the
negative-float-to-unsigned error — refuting the claim's "succeeds ...
rather than failing" for every integer-kind field. -/
theorem c10_counterexample :
    bindJSONBody [("num", .num (mkRat (-5) 2))]
        [(Field.mk "Num" [("json", "num")] (.uint .uint), .vuint .uint 0)] =
      .err [.vuint .uint 0] .negFloatToUint :=
  rfl

/-- C10 (amended): JSON numbers reach the coercer as `float64` values; a
JSON number bound to a signed integer-kind field succeeds by truncation
toward zero (reduced to the field's width), and bound to an unsigned
integer-kind field succeeds the same way when non-negative but fails with
the negative-float error when negative; no value a JSON body decodes to —
at any nesting depth — is a signed or unsigned integer source, so those
coercer cases are never exercised through JSON binding. -/
theorem c10_json_numbers_are_floats :
    (∀ q : Rat, jsonToGo (.num q) = .vfloat .float64 q) ∧
    (∀ (k : IntK) (n : String) (cur : GoVal) (q : Rat),
      setFieldValue (.int k) n cur (.vfloat .float64 q) =
        .ok (.vint k (wrapSigned k.width (truncQ q)))) ∧
    (∀ (k : UintK) (n : String) (cur : GoVal) (q : Rat),
      (¬ q < 0 →
        setFieldValue (.uint k) n cur (.vfloat .float64 q) =
          .ok (.vuint k (wrapUnsigned k.width (truncQ q).toNat))) ∧
      (q < 0 →
        setFieldValue (.uint k) n cur (.vfloat .float64 q) = .err .negFloatToUint cur)) ∧
    (∀ j : Json, (jsonToGo j).hasIntSource = false) := by
  refine ⟨fun q => rfl, ?_, ?_, ?_⟩
  · intro k n cur q
    simp [setFieldValue]
  · intro k n cur q
    constructor <;> intro h <;> simp [setFieldValue, h]
  · intro j
    refine @Json.rec (fun j => (jsonToGo j).hasIntSource = false)
      (fun xs => hasIntSourceList (jsonListToGo xs) = false)
      (fun ms => hasIntSourceEntries (jsonMembersToGo ms) = false)
      (fun p => (jsonToGo p.2).hasIntSource = false)
      rfl (fun _ => rfl) (fun _ => rfl) (fun _ => rfl)
      ?_ ?_ rfl ?_ rfl ?_ (fun _ _ h => h) j
    · intro xs h
      simpa [jsonToGo, GoVal.hasIntSource] using h
    · intro ms h
      simpa [jsonToGo, GoVal.hasIntSource] using h
    · intro x tail hx htail
      simp [jsonListToGo, hasIntSourceList, hx, htail]
    · intro hd tail hhd htail
      obtain ⟨k, v⟩ := hd
      simp [jsonMembersToGo, hasIntSourceEntries, hhd, htail]

/-- Witness for C10: 2.5 into an `int` field truncates to 2; 2.5 into a
`uint` field truncates to 2; −2.5 into a `uint` field errors. -/
theorem c10_json_numbers_are_floats_witness :
    setFieldValue (.int .int) "N" (.vint .int 0) (.vfloat .float64 (mkRat 5 2)) =
        .ok (.vint .int (wrapSigned IntK.int.width (truncQ (mkRat 5 2)))) ∧
      setFieldValue (.uint .uint) "N" (.vuint .uint 0) (.vfloat .float64 (mkRat 5 2)) =
        .ok (.vuint .uint (wrapUnsigned UintK.uint.width (truncQ (mkRat 5 2)).toNat)) ∧
      setFieldValue (.uint .uint) "N" (.vuint .uint 0) (.vfloat .float64 (mkRat (-5) 2)) =
        .err .negFloatToUint (.vuint .uint 0) :=
  ⟨c10_json_numbers_are_floats.2.1 .int "N" (.vint .int 0) (mkRat 5 2),
   (c10_json_numbers_are_floats.2.2.1 .uint "N" (.vuint .uint 0) (mkRat 5 2)).1
      (by decide),
   (c10_json_numbers_are_floats.2.2.1 .uint "N" (.vuint .uint 0) (mkRat (-5) 2)).2
      (by decide)⟩

end Gosh
